import Mathlib

/-!
Shallow embedding of the unified now-playing coordinator of the vibes_fm
repository and of the YouTube player manager it delegates to.

Sources embedded here:
* `NowPlayingProvider` (`NowPlayingContext`): the coordinator state
  `{ current, playing, queue, index }` together with the `audioRef` ref and the
  `position` React state, and its operations `pauseAll`, `requestPlayAudio`,
  `requestPlayYouTube`, `toggle`, `stop`, `seekBy`, `seekTo`, `next`, `prev`.
* `lib/youtubeManager.ts`: the module level `players` / `readyPromises`
  registries, `loadApi` and `ensureYouTubePlayer`, `play`, `pause`,
  `getTimes`, `seekTo`.

Mutable browser state (HTML audio elements and YouTube player instances) is
modelled by a `World` of finite-support functions; audio elements are
identified by an opaque key (the DOM reference).  Seconds are rationals.
Async functions are split at their `await`: the synchronous part before the
suspension and the continuation afterwards are separate definitions, and the
sequential operation composes them; an activation that never completes (a
script that never loads, a play promise that rejects) is represented by the
continuation not running, resp. by the element's `playFails` flag.
-/

set_option maxHeartbeats 1000000

namespace VibesFM

/-- One playable item (`NowPlayingKind` in `NowPlayingContext`): a direct
audio element (the `el` reference is modelled by an optional key) or a
YouTube video id. -/
inductive Item where
  | audio (id : String) (title : Option String) (elKey : Option String)
  | youtube (id : String) (title : Option String)
deriving DecidableEq

/-- State of one HTML audio element.  `playFails` says whether `el.play()`
rejects (network error etc.); in that case the element stays paused. -/
structure AudioElt where
  paused : Bool
  currentTime : ℚ
  duration : ℚ
  playFails : Bool
deriving DecidableEq

/-- State of one underlying YouTube player instance held by the manager's
`players` map. -/
structure YTPlayer where
  playing : Bool
  current : ℚ
  duration : ℚ
deriving DecidableEq

/-- The browser-side mutable state the coordinator acts on: every audio
element (keyed by its DOM reference) and the manager's `players` registry.
`ytDur` gives the duration a freshly constructed player reports. -/
structure World where
  audios : String → AudioElt
  players : String → Option YTPlayer
  ytDur : String → ℚ

/-- Update one audio element in place. -/
def setAudio (k : String) (f : AudioElt → AudioElt) (w : World) : World :=
  { w with audios := fun k' => if k' = k then f (w.audios k') else w.audios k' }

/-- el.pause(). -/
def audioPause (k : String) (w : World) : World :=
  setAudio k (fun a => { a with paused := true }) w

/-- el.load(): stops playback and resets the position. -/
def audioLoad (k : String) (w : World) : World :=
  setAudio k (fun a => { a with paused := true, currentTime := 0 }) w

/-- el.play(): starts playback unless this element's play() rejects. -/
def audioPlay (k : String) (w : World) : World :=
  setAudio k (fun a => if a.playFails then a else { a with paused := false }) w

/-- Assignment to el.currentTime (the coordinator assigns the raw value). -/
def audioSetTime (k : String) (t : ℚ) (w : World) : World :=
  setAudio k (fun a => { a with currentTime := t }) w

/-- Replace the registry entry for one video id. -/
def setPlayer (v : String) (p : YTPlayer) (w : World) : World :=
  { w with players := fun v' => if v' = v then some p else w.players v' }

/-- youtubeManager.pause: no-op when no player exists for the id. -/
def ytPause (v : String) (w : World) : World :=
  match w.players v with
  | none => w
  | some p => setPlayer v { p with playing := false } w

/-- youtubeManager.play: no-op when no player exists for the id. -/
def ytPlay (v : String) (w : World) : World :=
  match w.players v with
  | none => w
  | some p => setPlayer v { p with playing := true } w

/-- youtubeManager.seekTo: forwards the raw seconds when a player exists. -/
def ytSeekTo (v : String) (t : ℚ) (w : World) : World :=
  match w.players v with
  | none => w
  | some p => setPlayer v { p with current := t } w

/-- youtubeManager.getTimes: (current, duration), both 0 when no player. -/
def ytGetTimes (v : String) (w : World) : ℚ × ℚ :=
  match w.players v with
  | none => (0, 0)
  | some p => (p.current, p.duration)

/-- Effect of a completed `ensureYouTubePlayer`: constructs and registers the
(initially paused) player when the id has none yet. -/
def ensureComplete (v : String) (w : World) : World :=
  match w.players v with
  | some _ => w
  | none => setPlayer v { playing := false, current := 0, duration := w.ytDur v } w

/-- Math.min on seconds. -/
def rMin (a b : ℚ) : ℚ := if a ≤ b then a else b

/-- Math.max on seconds. -/
def rMax (a b : ℚ) : ℚ := if a ≤ b then b else a

/-- The coordinator's React state (`NowPlayingState`) plus the `audioRef` ref
and the `position` / `duration` states of the provider. -/
structure Coord where
  current : Option Item
  playing : Bool
  queue : List Item
  index : Int
  audioRef : Option String
  position : ℚ
  duration : ℚ
deriving DecidableEq

/-- The provider's initial state: `useState` with
current = null, playing = false, queue = [], index = -1, audioRef = null. -/
def initState : Coord :=
  { current := none, playing := false, queue := [], index := -1,
    audioRef := none, position := 0, duration := 0 }

/-- pauseAll(): early return on null current; otherwise pauses current's own
backing resource (cur.el or the registered player) and clears `playing`. -/
def pauseAllOp (s : Coord) (w : World) : Coord × World :=
  match s.current with
  | none => (s, w)
  | some (.audio _ _ ek) =>
      ({ s with playing := false },
       match ek with
       | some k => audioPause k w
       | none => w)
  | some (.youtube v _) => ({ s with playing := false }, ytPause v w)

/-- requestPlayAudio(el, meta): pauseAll, record the element in audioRef,
load and play it, then replace the whole state with the singleton queue; the
catch branch records the item with playing = false. -/
def requestPlayAudioOp (k id : String) (title : Option String)
    (s : Coord) (w : World) : Coord × World :=
  let sw1 := pauseAllOp s w
  let s2 := { sw1.1 with audioRef := some k }
  let w2 := audioLoad k sw1.2
  let ok := !(w2.audios k).playFails
  let w3 := audioPlay k w2
  let it : Item := .audio id title (some k)
  ({ s2 with current := some it, playing := ok, queue := [it], index := 0 }, w3)

/-- Continuation of requestPlayYouTube after `await ensureYouTubePlayer`
resolves: the player now exists; optional startSeconds seek, play, and the
full state replacement. -/
def rpYTCont (v : String) (title : Option String) (start : Option ℚ)
    (s : Coord) (w : World) : Coord × World :=
  let w1 := ensureComplete v w
  let w2 := match start with
            | some t => ytSeekTo v t w1
            | none => w1
  let w3 := ytPlay v w2
  let it : Item := .youtube v title
  ({ s with current := some it, playing := true, queue := [it], index := 0 }, w3)

/-- requestPlayYouTube(videoId, meta) as a settled sequential call.  `activ`
says whether a fresh player's initialization completes; when it is false and
no player is cached, the awaited promise never resolves and only the
synchronous pauseAll has happened by the time anything else observes the
state. -/
def requestPlayYouTubeOp (v : String) (title : Option String) (start : Option ℚ)
    (activ : Bool) (s : Coord) (w : World) : Coord × World :=
  let sw1 := pauseAllOp s w
  if activ || (sw1.2.players v).isSome then rpYTCont v title start sw1.1 sw1.2 else sw1

/-- toggle(): null current is a no-op; the audio branch drives audioRef's
element by its native paused flag and flips the `playing` flag regardless of
the play promise; the youtube branch drives the registered player by the
state's own `playing` flag. -/
def toggleOp (s : Coord) (w : World) : Coord × World :=
  match s.current with
  | none => (s, w)
  | some (.audio _ _ _) =>
      match s.audioRef with
      | none => ({ s with playing := !s.playing }, w)
      | some k =>
          if (w.audios k).paused then ({ s with playing := !s.playing }, audioPlay k w)
          else ({ s with playing := !s.playing }, audioPause k w)
  | some (.youtube v _) =>
      if s.playing then ({ s with playing := false }, ytPause v w)
      else ({ s with playing := true }, ytPlay v w)

/-- stop(): pauseAll followed by an unconditional playing := false. -/
def stopOp (s : Coord) (w : World) : Coord × World :=
  let sw1 := pauseAllOp s w
  ({ sw1.1 with playing := false }, sw1.2)

/-- seekBy(delta): null current is a no-op; both branches clamp the target to
[0, duration] and record it in `position`; the audio branch acts on audioRef
(returning when it is null). -/
def seekByOp (d : ℚ) (s : Coord) (w : World) : Coord × World :=
  match s.current with
  | none => (s, w)
  | some (.audio _ _ _) =>
      match s.audioRef with
      | none => (s, w)
      | some k =>
          let a := w.audios k
          let tgt := rMax 0 (rMin a.duration (a.currentTime + d))
          ({ s with position := tgt }, audioSetTime k tgt w)
  | some (.youtube v _) =>
      let t := ytGetTimes v w
      let tgt := rMax 0 (rMin t.2 (t.1 + d))
      ({ s with position := tgt }, ytSeekTo v tgt w)

/-- seekTo(seconds): null current is a no-op; otherwise the raw seconds are
assigned to the backing resource and to `position`, with no clamping. -/
def seekToOp (x : ℚ) (s : Coord) (w : World) : Coord × World :=
  match s.current with
  | none => (s, w)
  | some (.audio _ _ _) =>
      match s.audioRef with
      | none => (s, w)
      | some k => ({ s with position := x }, audioSetTime k x w)
  | some (.youtube v _) => ({ s with position := x }, ytSeekTo v x w)

/-- Shared body of next()/prev() after the length guard: the queue entry at
the clamped index `ni` is re-requested with a voided requestPlay; the
navigation's own `setState(index := ni)` lands between that call's
synchronous part and its continuation (the play promise or the player
readiness resolves strictly later), so the re-request's full state
replacement wins.  An audio entry whose element reference is null only moves
the index.  The out-of-range lookup cannot arise from the coordinator's own
states. -/
def navTo (ni : Int) (activ : Bool) (s : Coord) (w : World) : Coord × World :=
  match (if 0 ≤ ni then s.queue.get? ni.toNat else none) with
  | none => (s, w)
  | some (.audio _ _ none) => ({ s with index := ni }, w)
  | some (.audio id t (some k)) =>
      let sw1 := pauseAllOp s w
      let s2 := { sw1.1 with audioRef := some k, index := ni }
      let w2 := audioLoad k sw1.2
      let ok := !(w2.audios k).playFails
      let w3 := audioPlay k w2
      let it : Item := .audio id t (some k)
      ({ s2 with current := some it, playing := ok, queue := [it], index := 0 }, w3)
  | some (.youtube v t) =>
      let sw1 := pauseAllOp s w
      let s2 := { sw1.1 with index := ni }
      if activ || (sw1.2.players v).isSome then rpYTCont v t none s2 sw1.2 else (s2, sw1.2)

/-- next(): no-op on an empty or singleton queue, else navigate to
min(queue.length - 1, index + 1). -/
def nextOp (activ : Bool) (s : Coord) (w : World) : Coord × World :=
  if s.queue.length ≤ 1 then (s, w)
  else navTo (min ((s.queue.length : Int) - 1) (s.index + 1)) activ s w

/-- prev(): no-op on an empty or singleton queue, else navigate to
max(0, index - 1). -/
def prevOp (activ : Bool) (s : Coord) (w : World) : Coord × World :=
  if s.queue.length ≤ 1 then (s, w)
  else navTo (max 0 (s.index - 1)) activ s w

/-- One public coordinator operation, with the environment data that decides
its branches (element keys, activation outcomes) carried as parameters. -/
inductive Op where
  | playAudio (elKey id : String) (title : Option String)
  | playYouTube (v : String) (title : Option String) (start : Option ℚ) (activ : Bool)
  | doToggle
  | doPauseAll
  | doStop
  | doSeekBy (d : ℚ)
  | doSeekTo (x : ℚ)
  | doNext (activ : Bool)
  | doPrev (activ : Bool)

/-- Interpret one operation. -/
def stepOp (op : Op) (sw : Coord × World) : Coord × World :=
  match op with
  | .playAudio k id t => requestPlayAudioOp k id t sw.1 sw.2
  | .playYouTube v t st a => requestPlayYouTubeOp v t st a sw.1 sw.2
  | .doToggle => toggleOp sw.1 sw.2
  | .doPauseAll => pauseAllOp sw.1 sw.2
  | .doStop => stopOp sw.1 sw.2
  | .doSeekBy d => seekByOp d sw.1 sw.2
  | .doSeekTo x => seekToOp x sw.1 sw.2
  | .doNext a => nextOp a sw.1 sw.2
  | .doPrev a => prevOp a sw.1 sw.2

/-- Run a sequence of settled operations in call order. -/
def runOps (ops : List Op) (sw : Coord × World) : Coord × World :=
  ops.foldl (fun acc op => stepOp op acc) sw

/-- A backing source: one audio element or one YouTube player. -/
inductive Src where
  | audioEl (k : String)
  | ytPl (v : String)
deriving DecidableEq

/-- Whether a backing source is natively playing in a world. -/
def playingSrc (w : World) : Src → Bool
  | .audioEl k => !(w.audios k).paused
  | .ytPl v =>
      match w.players v with
      | none => false
      | some p => p.playing

/-- The source backs the coordinator's current item. -/
def backsCurrent (c : Coord) : Src → Prop
  | .audioEl k => ∃ id t, c.current = some (.audio id t (some k))
  | .ytPl v => ∃ t, c.current = some (.youtube v t)

/-- The coordinator's run-time invariant: every natively playing source backs
`current`; a null current means not playing; and a current audio item always
has a non-null element reference that agrees with audioRef. -/
def Inv (c : Coord) (w : World) : Prop :=
  (∀ src, playingSrc w src = true → backsCurrent c src)
  ∧ (c.current = none → c.playing = false)
  ∧ (∀ id t ek, c.current = some (.audio id t ek) → ∃ k, ek = some k ∧ c.audioRef = some k)

/-- A world where nothing is playing, no players exist and every element is
healthy: the page as first loaded. -/
def quietWorld : World :=
  { audios := fun _ => { paused := true, currentTime := 0, duration := 0, playFails := false },
    players := fun _ => none,
    ytDur := fun _ => 0 }

/-- A world whose audio elements all reject play(). -/
def failWorld : World :=
  { audios := fun _ => { paused := true, currentTime := 0, duration := 0, playFails := true },
    players := fun _ => none,
    ytDur := fun _ => 0 }

/-! youtubeManager module state, for the `ensureYouTubePlayer` claims.
Player instances and promise objects are given identities by counters so
that distinct constructions are distinguishable. -/

/-- The youtubeManager module's mutable state: whether `apiReadyPromise` has
been created, how many API script tags were appended, the `players` and
`readyPromises` registries (holding instance resp. promise identities), and
the two identity counters.  `playerCount` is the total number of
`YT.Player` constructions so far. -/
structure Mgr where
  apiStarted : Bool
  scriptCount : Nat
  players : String → Option Nat
  readyProm : String → Option Nat
  playerCount : Nat
  promCount : Nat

/-- The module as first loaded. -/
def mgr0 : Mgr :=
  { apiStarted := false, scriptCount := 0, players := fun _ => none,
    readyProm := fun _ => none, playerCount := 0, promCount := 0 }

/-- loadApi(): only the first call creates `apiReadyPromise` and appends the
script tag; later calls return the cached promise. -/
def mgrLoadApi (m : Mgr) : Mgr :=
  if m.apiStarted then m
  else { m with apiStarted := true, scriptCount := m.scriptCount + 1 }

/-- The synchronous part of `ensureYouTubePlayer`, up to `await loadApi()`:
a cached player resolves immediately, otherwise the call starts the API load
and suspends. -/
def ensureCheck (vid : String) (m : Mgr) : Option Nat × Mgr :=
  match m.players vid with
  | some i => (some i, m)
  | none => (none, mgrLoadApi m)

/-- The part of `ensureYouTubePlayer` that runs once the API is ready: it
creates a fresh ready promise (overwriting any previous `readyPromises`
entry), constructs a player and registers it (overwriting any previous
`players` entry), then suspends on the ready promise.  Returns the new
player's and promise's identities. -/
def ensureConstruct (vid : String) (m : Mgr) : Nat × Nat × Mgr :=
  (m.playerCount, m.promCount,
   { m with
     players := fun v => if v = vid then some m.playerCount else m.players v,
     readyProm := fun v => if v = vid then some m.promCount else m.readyProm v,
     playerCount := m.playerCount + 1,
     promCount := m.promCount + 1 })

/-- One complete, uninterleaved `ensureYouTubePlayer` call whose player (if
freshly constructed) fires ready: returns the player the call resolves with. -/
def ensureFull (vid : String) (m : Mgr) : Nat × Mgr :=
  match ensureCheck vid m with
  | (some i, m1) => (i, m1)
  | (none, m1) =>
      let r := ensureConstruct vid m1
      (r.1, r.2.2)

/-- Two concurrent `ensureYouTubePlayer` calls for the same id, both running
their synchronous cache check before the shared API promise resolves: final
module state. -/
def raceFinal (vid : String) : Mgr :=
  let c1 := ensureCheck vid mgr0
  let c2 := ensureCheck vid c1.2
  let r1 := ensureConstruct vid c2.2
  (ensureConstruct vid r1.2.2).2.2

/-- Identity of the ready promise the first racing call awaits. -/
def raceProm1 (vid : String) : Nat :=
  let c1 := ensureCheck vid mgr0
  let c2 := ensureCheck vid c1.2
  (ensureConstruct vid c2.2).2.1

/-- Identity of the ready promise the second racing call awaits. -/
def raceProm2 (vid : String) : Nat :=
  let c1 := ensureCheck vid mgr0
  let c2 := ensureCheck vid c1.2
  let r1 := ensureConstruct vid c2.2
  (ensureConstruct vid r1.2.2).2.1

/-! Concrete scenario states used by the counterexamples. -/

/-- Audio item with id "a" backed by element "ka". -/
def itemA : Item := .audio "a" none (some "ka")

/-- Audio item with id "b" backed by element "kb". -/
def itemB : Item := .audio "b" none (some "kb")

/-- YouTube items used by the queue scenarios. -/
def ytX : Item := .youtube "X" none

/-- Second YouTube queue item. -/
def ytY : Item := .youtube "Y" none

/-- Third YouTube queue item. -/
def ytZ : Item := .youtube "Z" none

/-- A state whose queue [A, B] already contains the current item A. -/
def c4State : Coord :=
  { current := some itemA, playing := true, queue := [itemA, itemB], index := 0,
    audioRef := some "ka", position := 0, duration := 0 }

/-- A state at the upper queue boundary: queue [X, Y] with index 1. -/
def c5State : Coord :=
  { current := some ytY, playing := true, queue := [ytX, ytY], index := 1,
    audioRef := none, position := 0, duration := 0 }

/-- Scenario C state: queue [X, Y, Z], index 1, current Y playing. -/
def c6State : Coord :=
  { current := some ytY, playing := true, queue := [ytX, ytY, ytZ], index := 1,
    audioRef := none, position := 0, duration := 0 }

/-- An active direct-audio state whose element has duration 120. -/
def c7State : Coord :=
  { current := some itemA, playing := true, queue := [itemA], index := 0,
    audioRef := some "ka", position := 10, duration := 120 }

/-- A world where element "ka" is playing at second 10 of 120. -/
def c7World : World :=
  { audios := fun _ => { paused := false, currentTime := 10, duration := 120, playFails := false },
    players := fun _ => none,
    ytDur := fun _ => 0 }

/-- An unreachable state with playing = true but no current item. -/
def phantomState : Coord :=
  { current := none, playing := true, queue := [], index := -1,
    audioRef := none, position := 0, duration := 0 }

/-- The generation race of claim C3: requestPlayYouTube "A" immediately
followed by requestPlayYouTube "B", where A's player fires ready only after
B's call has fully settled.  Both synchronous pauseAll parts run in call
order; B's continuation runs, then A's stale continuation runs last. -/
def raceRun : Coord × World :=
  let a1 := pauseAllOp initState quietWorld
  let b1 := pauseAllOp a1.1 a1.2
  let b2 := rpYTCont "B" none none b1.1 b1.2
  rpYTCont "A" none none b2.1 b2.2

/-! Transport lemmas: how each world primitive affects which sources are
natively playing. -/

lemma playing_setAudioPause {k : String} {f : AudioElt → AudioElt} {w : World} {src : Src}
    (hf : ∀ a, (f a).paused = true)
    (h : playingSrc (setAudio k f w) src = true) :
    playingSrc w src = true ∧ src ≠ Src.audioEl k := by
  cases src with
  | audioEl k' =>
    simp only [playingSrc, setAudio] at h
    by_cases hk : k' = k
    · rw [if_pos hk, hf] at h
      simp at h
    · rw [if_neg hk] at h
      exact ⟨h, by simp [hk]⟩
  | ytPl v => exact ⟨h, by simp⟩

lemma playing_audioPause {k : String} {w : World} {src : Src}
    (h : playingSrc (audioPause k w) src = true) :
    playingSrc w src = true ∧ src ≠ Src.audioEl k :=
  playing_setAudioPause (fun _ => rfl) h

lemma playing_audioLoad {k : String} {w : World} {src : Src}
    (h : playingSrc (audioLoad k w) src = true) :
    playingSrc w src = true ∧ src ≠ Src.audioEl k :=
  playing_setAudioPause (fun _ => rfl) h

lemma playing_audioPlay {k : String} {w : World} {src : Src}
    (h : playingSrc (audioPlay k w) src = true) :
    src = Src.audioEl k ∨ playingSrc w src = true := by
  cases src with
  | audioEl k' =>
    by_cases hk : k' = k
    · exact Or.inl (by rw [hk])
    · right
      simpa only [playingSrc, audioPlay, setAudio, if_neg hk] using h
  | ytPl v => exact Or.inr h

lemma playingSrc_audioSetTime (k : String) (t : ℚ) (w : World) (src : Src) :
    playingSrc (audioSetTime k t w) src = playingSrc w src := by
  cases src with
  | audioEl k' =>
    simp only [playingSrc, audioSetTime, setAudio]
    by_cases hk : k' = k
    · rw [if_pos hk]
    · rw [if_neg hk]
  | ytPl v => rfl

lemma playing_ytPause {v : String} {w : World} {src : Src}
    (h : playingSrc (ytPause v w) src = true) :
    playingSrc w src = true ∧ src ≠ Src.ytPl v := by
  unfold ytPause at h
  cases src with
  | audioEl k =>
    refine ⟨?_, by simp⟩
    cases hp : w.players v with
    | none => rw [hp] at h; exact h
    | some p => rw [hp] at h; exact h
  | ytPl v' =>
    by_cases hv : v' = v
    · subst hv
      exfalso
      cases hp : w.players v' with
      | none => rw [hp] at h; simp [playingSrc, hp] at h
      | some p =>
        rw [hp] at h
        simp [playingSrc, setPlayer] at h
    · refine ⟨?_, by simp [hv]⟩
      cases hp : w.players v with
      | none => rw [hp] at h; exact h
      | some p =>
        rw [hp] at h
        simpa [playingSrc, setPlayer, hv] using h

lemma playing_ytPlay {v : String} {w : World} {src : Src}
    (h : playingSrc (ytPlay v w) src = true) :
    src = Src.ytPl v ∨ playingSrc w src = true := by
  unfold ytPlay at h
  cases src with
  | audioEl k =>
    right
    cases hp : w.players v with
    | none => rw [hp] at h; exact h
    | some p => rw [hp] at h; exact h
  | ytPl v' =>
    by_cases hv : v' = v
    · exact Or.inl (by rw [hv])
    · right
      cases hp : w.players v with
      | none => rw [hp] at h; exact h
      | some p =>
        rw [hp] at h
        simpa [playingSrc, setPlayer, hv] using h

lemma playingSrc_ytSeekTo (v : String) (t : ℚ) (w : World) (src : Src) :
    playingSrc (ytSeekTo v t w) src = playingSrc w src := by
  unfold ytSeekTo
  cases hp : w.players v with
  | none => rfl
  | some p =>
    cases src with
    | audioEl k => rfl
    | ytPl v' =>
      simp only [playingSrc, setPlayer]
      by_cases hv : v' = v
      · rw [if_pos hv, hv, hp]
      · rw [if_neg hv]

lemma playing_ensureComplete {v : String} {w : World} {src : Src}
    (h : playingSrc (ensureComplete v w) src = true) :
    playingSrc w src = true := by
  unfold ensureComplete at h
  cases hp : w.players v with
  | some p => rw [hp] at h; exact h
  | none =>
    rw [hp] at h
    cases src with
    | audioEl k => exact h
    | ytPl v' =>
      by_cases hv : v' = v
      · exfalso
        simp [playingSrc, setPlayer, hv] at h
      · simpa [playingSrc, setPlayer, hv] using h

/-! Structure of pauseAll. -/

lemma pauseAll_of_none {s : Coord} (w : World) (hc : s.current = none) :
    pauseAllOp s w = (s, w) := by
  unfold pauseAllOp
  rw [hc]

lemma pauseAll_state (s : Coord) (w : World) :
    (pauseAllOp s w).1.current = s.current ∧ (pauseAllOp s w).1.queue = s.queue
    ∧ (pauseAllOp s w).1.index = s.index ∧ (pauseAllOp s w).1.audioRef = s.audioRef := by
  obtain ⟨cur, pl, q, i, ar, pos, dur⟩ := s
  cases cur with
  | none => exact ⟨rfl, rfl, rfl, rfl⟩
  | some it => cases it <;> exact ⟨rfl, rfl, rfl, rfl⟩

lemma pauseAll_playing_of_some {s : Coord} (w : World) {it : Item}
    (hc : s.current = some it) :
    (pauseAllOp s w).1.playing = false := by
  unfold pauseAllOp
  rw [hc]
  cases it <;> rfl

/-- After pauseAll, nothing that was only playing because it backed `current`
is playing any more; under the invariant's first clause that is everything. -/
lemma pauseAll_quiet {s : Coord} {w : World}
    (h : ∀ src, playingSrc w src = true → backsCurrent s src) :
    ∀ src, playingSrc (pauseAllOp s w).2 src = false := by
  intro src
  cases hp : playingSrc (pauseAllOp s w).2 src with
  | false => rfl
  | true =>
    exfalso
    unfold pauseAllOp at hp
    cases hc : s.current with
    | none =>
      rw [hc] at hp
      have hb := h src hp
      cases src with
      | audioEl k =>
        rcases hb with ⟨id, t, hcur⟩
        rw [hc] at hcur
        cases hcur
      | ytPl v =>
        rcases hb with ⟨t, hcur⟩
        rw [hc] at hcur
        cases hcur
    | some it =>
      rw [hc] at hp
      cases it with
      | audio id t ek =>
        cases ek with
        | none =>
          have hb := h src hp
          cases src with
          | audioEl k =>
            rcases hb with ⟨id', t', hcur⟩
            rw [hc] at hcur
            cases hcur
          | ytPl v =>
            rcases hb with ⟨t', hcur⟩
            rw [hc] at hcur
            cases hcur
        | some k =>
          rcases playing_audioPause hp with ⟨hw, hne⟩
          have hb := h src hw
          cases src with
          | audioEl k' =>
            rcases hb with ⟨id', t', hcur⟩
            rw [hc] at hcur
            cases hcur
            exact hne rfl
          | ytPl v =>
            rcases hb with ⟨t', hcur⟩
            rw [hc] at hcur
            cases hcur
      | youtube v t =>
        rcases playing_ytPause hp with ⟨hw, hne⟩
        have hb := h src hw
        cases src with
        | audioEl k =>
          rcases hb with ⟨id', t', hcur⟩
          rw [hc] at hcur
          cases hcur
        | ytPl v' =>
          rcases hb with ⟨t', hcur⟩
          rw [hc] at hcur
          cases hcur
          exact hne rfl

/-! Field preservation through the world primitives. -/

lemma playFails_setAudio {k : String} {f : AudioElt → AudioElt} (w : World) (k' : String)
    (hf : ∀ a, (f a).playFails = a.playFails) :
    ((setAudio k f w).audios k').playFails = (w.audios k').playFails := by
  simp only [setAudio]
  by_cases hk : k' = k
  · rw [if_pos hk, hf]
  · rw [if_neg hk]

lemma players_isSome_ytPause (v : String) (w : World) (v' : String) :
    ((ytPause v w).players v').isSome = (w.players v').isSome := by
  unfold ytPause
  cases hp : w.players v with
  | none => rfl
  | some p =>
    simp only [setPlayer]
    by_cases hv : v' = v
    · rw [if_pos hv, hv, hp]
      rfl
    · rw [if_neg hv]

lemma playFails_audioPause (k : String) (w : World) (k' : String) :
    ((audioPause k w).audios k').playFails = ((w.audios k').playFails) :=
  playFails_setAudio w k' (fun _ => rfl)

lemma audios_ytPause (v : String) (w : World) : (ytPause v w).audios = w.audios := by
  unfold ytPause
  cases hp : w.players v with
  | none => rfl
  | some p => rfl

lemma pauseAll_playFails (s : Coord) (w : World) (k : String) :
    (((pauseAllOp s w).2).audios k).playFails = ((w.audios k).playFails) := by
  obtain ⟨cur, pl, q, i, ar, pos, dur⟩ := s
  cases cur with
  | none => rfl
  | some it =>
    cases it with
    | audio id t ek =>
      cases ek with
      | none => rfl
      | some k0 => exact playFails_audioPause k0 w k
    | youtube v t =>
      show (((ytPause v w).audios k).playFails) = _
      rw [audios_ytPause]

lemma pauseAll_players_isSome (s : Coord) (w : World) (v : String) :
    (((pauseAllOp s w).2).players v).isSome = ((w.players v).isSome) := by
  unfold pauseAllOp
  cases hc : s.current with
  | none => rfl
  | some it =>
    cases it with
    | audio id t ek =>
      cases ek with
      | none => rfl
      | some k0 => rfl
    | youtube v0 t => exact players_isSome_ytPause v0 w v

lemma playFails_audioLoad (k : String) (w : World) (k' : String) :
    ((audioLoad k w).audios k').playFails = ((w.audios k').playFails) :=
  playFails_setAudio w k' (fun _ => rfl)

/-! Reduction lemmas: each operation's branches, conditioned on the state
fields that select them. -/

lemma toggle_of_none {s : Coord} (w : World) (hc : s.current = none) :
    toggleOp s w = (s, w) := by
  obtain ⟨cur, pl, q, i, ar, pos, dur⟩ := s
  cases hc
  rfl

lemma toggle_audio_noref {s : Coord} (w : World) (id : String) (t : Option String)
    (ek : Option String) (hc : s.current = some (.audio id t ek)) (har : s.audioRef = none) :
    toggleOp s w = ({ s with playing := !s.playing }, w) := by
  obtain ⟨cur, pl, q, i, ar, pos, dur⟩ := s
  cases hc
  cases har
  rfl

lemma toggle_audio_spec {s : Coord} (w : World) (id : String) (t : Option String)
    (ek : Option String) (k : String)
    (hc : s.current = some (.audio id t ek)) (har : s.audioRef = some k) :
    toggleOp s w =
      (if (w.audios k).paused then ({ s with playing := !s.playing }, audioPlay k w)
       else ({ s with playing := !s.playing }, audioPause k w)) := by
  obtain ⟨cur, pl, q, i, ar, pos, dur⟩ := s
  cases hc
  cases har
  rfl

lemma toggle_youtube_true {s : Coord} (w : World) (v : String) (t : Option String)
    (hc : s.current = some (.youtube v t)) (hpl : s.playing = true) :
    toggleOp s w = ({ s with playing := false }, ytPause v w) := by
  obtain ⟨cur, pl, q, i, ar, pos, dur⟩ := s
  cases hc
  cases hpl
  rfl

lemma toggle_youtube_false {s : Coord} (w : World) (v : String) (t : Option String)
    (hc : s.current = some (.youtube v t)) (hpl : s.playing = false) :
    toggleOp s w = ({ s with playing := true }, ytPlay v w) := by
  obtain ⟨cur, pl, q, i, ar, pos, dur⟩ := s
  cases hc
  cases hpl
  rfl

lemma seekBy_of_none {s : Coord} (w : World) (d : ℚ) (hc : s.current = none) :
    seekByOp d s w = (s, w) := by
  obtain ⟨cur, pl, q, i, ar, pos, dur⟩ := s
  cases hc
  rfl

lemma seekBy_audio_noref {s : Coord} (w : World) (d : ℚ) (id : String) (t : Option String)
    (ek : Option String) (hc : s.current = some (.audio id t ek)) (har : s.audioRef = none) :
    seekByOp d s w = (s, w) := by
  obtain ⟨cur, pl, q, i, ar, pos, dur⟩ := s
  cases hc
  cases har
  rfl

lemma seekBy_audio_spec {s : Coord} (w : World) (d : ℚ) (id : String) (t : Option String)
    (ek : Option String) (k : String)
    (hc : s.current = some (.audio id t ek)) (har : s.audioRef = some k) :
    seekByOp d s w =
      (({ s with position := rMax 0 (rMin (w.audios k).duration ((w.audios k).currentTime + d)) }),
       audioSetTime k (rMax 0 (rMin (w.audios k).duration ((w.audios k).currentTime + d))) w) := by
  obtain ⟨cur, pl, q, i, ar, pos, dur⟩ := s
  cases hc
  cases har
  rfl

lemma seekBy_youtube_spec {s : Coord} (w : World) (d : ℚ) (v : String) (t : Option String)
    (hc : s.current = some (.youtube v t)) :
    seekByOp d s w =
      (({ s with position := rMax 0 (rMin (ytGetTimes v w).2 ((ytGetTimes v w).1 + d)) }),
       ytSeekTo v (rMax 0 (rMin (ytGetTimes v w).2 ((ytGetTimes v w).1 + d))) w) := by
  obtain ⟨cur, pl, q, i, ar, pos, dur⟩ := s
  cases hc
  rfl

lemma seekTo_of_none {s : Coord} (w : World) (x : ℚ) (hc : s.current = none) :
    seekToOp x s w = (s, w) := by
  obtain ⟨cur, pl, q, i, ar, pos, dur⟩ := s
  cases hc
  rfl

lemma seekTo_audio_noref {s : Coord} (w : World) (x : ℚ) (id : String) (t : Option String)
    (ek : Option String) (hc : s.current = some (.audio id t ek)) (har : s.audioRef = none) :
    seekToOp x s w = (s, w) := by
  obtain ⟨cur, pl, q, i, ar, pos, dur⟩ := s
  cases hc
  cases har
  rfl

lemma seekTo_audio_spec {s : Coord} (w : World) (x : ℚ) (id : String) (t : Option String)
    (ek : Option String) (k : String)
    (hc : s.current = some (.audio id t ek)) (har : s.audioRef = some k) :
    seekToOp x s w = ({ s with position := x }, audioSetTime k x w) := by
  obtain ⟨cur, pl, q, i, ar, pos, dur⟩ := s
  cases hc
  cases har
  rfl

lemma seekTo_youtube_spec {s : Coord} (w : World) (x : ℚ) (v : String) (t : Option String)
    (hc : s.current = some (.youtube v t)) :
    seekToOp x s w = ({ s with position := x }, ytSeekTo v x w) := by
  obtain ⟨cur, pl, q, i, ar, pos, dur⟩ := s
  cases hc
  rfl

lemma navTo_miss (ni : Int) (activ : Bool) {s : Coord} (w : World)
    (hlook : (if 0 ≤ ni then s.queue.get? ni.toNat else none) = (none : Option Item)) :
    navTo ni activ s w = (s, w) := by
  unfold navTo
  rw [hlook]

lemma navTo_audio_noel (ni : Int) (activ : Bool) {s : Coord} (w : World)
    (id : String) (t : Option String)
    (hlook : (if 0 ≤ ni then s.queue.get? ni.toNat else none) = some (.audio id t none)) :
    navTo ni activ s w = ({ s with index := ni }, w) := by
  unfold navTo
  rw [hlook]

lemma navTo_audio_eq_rp (ni : Int) (activ : Bool) {s : Coord} (w : World)
    (id : String) (t : Option String) (k : String)
    (hlook : (if 0 ≤ ni then s.queue.get? ni.toNat else none) = some (.audio id t (some k))) :
    navTo ni activ s w = requestPlayAudioOp k id t s w := by
  unfold navTo
  rw [hlook]
  rfl

lemma navTo_yt_spec (ni : Int) (activ : Bool) {s : Coord} (w : World)
    (v : String) (t : Option String)
    (hlook : (if 0 ≤ ni then s.queue.get? ni.toNat else none) = some (.youtube v t)) :
    navTo ni activ s w =
      (if activ || ((pauseAllOp s w).2.players v).isSome
       then rpYTCont v t none { (pauseAllOp s w).1 with index := ni } (pauseAllOp s w).2
       else ({ (pauseAllOp s w).1 with index := ni }, (pauseAllOp s w).2)) := by
  unfold navTo
  rw [hlook]

lemma nextOp_short {s : Coord} (w : World) (activ : Bool) (h : s.queue.length ≤ 1) :
    nextOp activ s w = (s, w) := by
  unfold nextOp
  rw [if_pos h]

lemma prevOp_short {s : Coord} (w : World) (activ : Bool) (h : s.queue.length ≤ 1) :
    prevOp activ s w = (s, w) := by
  unfold prevOp
  rw [if_pos h]

lemma nextOp_long {s : Coord} (w : World) (activ : Bool) (h : ¬ s.queue.length ≤ 1) :
    nextOp activ s w = navTo (min ((s.queue.length : Int) - 1) (s.index + 1)) activ s w := by
  unfold nextOp
  rw [if_neg h]

lemma prevOp_long {s : Coord} (w : World) (activ : Bool) (h : ¬ s.queue.length ≤ 1) :
    prevOp activ s w = navTo (max 0 (s.index - 1)) activ s w := by
  unfold prevOp
  rw [if_neg h]

/-! Preservation of the invariant by every public operation. -/

lemma backs_congr {c c' : Coord} (hcur : c'.current = c.current) {src : Src}
    (h : backsCurrent c src) : backsCurrent c' src := by
  cases src with
  | audioEl k =>
    rcases h with ⟨id, t, hc⟩
    exact ⟨id, t, by rw [hcur, hc]⟩
  | ytPl v =>
    rcases h with ⟨t, hc⟩
    exact ⟨t, by rw [hcur, hc]⟩

lemma inv_pauseAll {s : Coord} {w : World} (hI : Inv s w) :
    Inv (pauseAllOp s w).1 (pauseAllOp s w).2 := by
  obtain ⟨h1, h2, h3⟩ := hI
  obtain ⟨hcur, -, -, har⟩ := pauseAll_state s w
  refine ⟨?_, ?_, ?_⟩
  · intro src hp
    rw [pauseAll_quiet h1 src] at hp
    cases hp
  · intro hc
    rw [hcur] at hc
    rw [pauseAll_of_none w hc]
    exact h2 hc
  · intro id t ek hc
    rw [hcur] at hc
    rw [har]
    exact h3 id t ek hc

lemma inv_requestPlayAudio (k id : String) (t : Option String) {s : Coord} {w : World}
    (hI : Inv s w) :
    Inv (requestPlayAudioOp k id t s w).1 (requestPlayAudioOp k id t s w).2 := by
  obtain ⟨h1, h2, h3⟩ := hI
  refine ⟨?_, ?_, ?_⟩
  · intro src hp
    have hp' : playingSrc (audioPlay k (audioLoad k (pauseAllOp s w).2)) src = true := hp
    rcases playing_audioPlay hp' with h | h
    · subst h
      exact ⟨id, t, rfl⟩
    · exfalso
      rcases playing_audioLoad h with ⟨h', -⟩
      rw [pauseAll_quiet h1 src] at h'
      cases h'
  · intro hc
    exact Option.noConfusion hc
  · intro id' t' ek hc
    have hc' : some (Item.audio id t (some k)) = some (Item.audio id' t' ek) := hc
    cases hc'
    exact ⟨k, rfl, rfl⟩

lemma playing_rpYTCont {v : String} {t : Option String} {st : Option ℚ}
    {s : Coord} {w : World} {src : Src}
    (h : playingSrc (rpYTCont v t st s w).2 src = true) :
    src = Src.ytPl v ∨ playingSrc w src = true := by
  cases st with
  | none =>
    have h' : playingSrc (ytPlay v (ensureComplete v w)) src = true := h
    rcases playing_ytPlay h' with h1 | h1
    · exact Or.inl h1
    · exact Or.inr (playing_ensureComplete h1)
  | some x =>
    have h' : playingSrc (ytPlay v (ytSeekTo v x (ensureComplete v w))) src = true := h
    rcases playing_ytPlay h' with h1 | h1
    · exact Or.inl h1
    · rw [playingSrc_ytSeekTo] at h1
      exact Or.inr (playing_ensureComplete h1)

lemma inv_rpYTCont (v : String) (t : Option String) (st : Option ℚ) {s : Coord} {w : World}
    (hq : ∀ src, playingSrc w src = false) :
    Inv (rpYTCont v t st s w).1 (rpYTCont v t st s w).2 := by
  refine ⟨?_, ?_, ?_⟩
  · intro src hp
    rcases playing_rpYTCont hp with h | h
    · subst h
      exact ⟨t, rfl⟩
    · rw [hq src] at h
      cases h
  · intro hc
    exact Option.noConfusion hc
  · intro id' t' ek hc
    have hc' : some (Item.youtube v t) = some (Item.audio id' t' ek) := hc
    cases Option.some.inj hc'

lemma inv_requestPlayYouTube (v : String) (t : Option String) (st : Option ℚ) (a : Bool)
    {s : Coord} {w : World} (hI : Inv s w) :
    Inv (requestPlayYouTubeOp v t st a s w).1 (requestPlayYouTubeOp v t st a s w).2 := by
  have hred : requestPlayYouTubeOp v t st a s w =
      (if a || ((pauseAllOp s w).2.players v).isSome
       then rpYTCont v t st (pauseAllOp s w).1 (pauseAllOp s w).2
       else pauseAllOp s w) := rfl
  rw [hred]
  by_cases hb : (a || ((pauseAllOp s w).2.players v).isSome) = true
  · rw [if_pos hb]
    exact inv_rpYTCont v t st (pauseAll_quiet hI.1)
  · rw [if_neg hb]
    exact inv_pauseAll hI

lemma inv_toggle {s : Coord} {w : World} (hI : Inv s w) :
    Inv (toggleOp s w).1 (toggleOp s w).2 := by
  obtain ⟨h1, h2, h3⟩ := hI
  cases hc : s.current with
  | none =>
    rw [toggle_of_none w hc]
    exact ⟨h1, h2, h3⟩
  | some it =>
    cases it with
    | audio id t ek =>
      obtain ⟨k, hek, har⟩ := h3 id t ek hc
      subst hek
      rw [toggle_audio_spec w id t (some k) k hc har]
      by_cases hpaused : (w.audios k).paused
      · rw [if_pos hpaused]
        refine ⟨?_, ?_, ?_⟩
        · intro src hp
          rcases playing_audioPlay hp with h | h
          · subst h
            exact ⟨id, t, hc⟩
          · exact backs_congr rfl (h1 src h)
        · intro hcc
          rw [show ({ s with playing := !s.playing } : Coord).current = s.current from rfl, hc] at hcc
          cases hcc
        · intro id' t' ek' hcc
          exact h3 id' t' ek' hcc
      · rw [if_neg hpaused]
        refine ⟨?_, ?_, ?_⟩
        · intro src hp
          rcases playing_audioPause hp with ⟨h, -⟩
          exact backs_congr rfl (h1 src h)
        · intro hcc
          rw [show ({ s with playing := !s.playing } : Coord).current = s.current from rfl, hc] at hcc
          cases hcc
        · intro id' t' ek' hcc
          exact h3 id' t' ek' hcc
    | youtube v t =>
      cases hpl : s.playing with
      | true =>
        rw [toggle_youtube_true w v t hc hpl]
        refine ⟨?_, ?_, ?_⟩
        · intro src hp
          rcases playing_ytPause hp with ⟨h, -⟩
          exact backs_congr rfl (h1 src h)
        · intro hcc
          rw [show ({ s with playing := false } : Coord).current = s.current from rfl, hc] at hcc
        · intro id' t' ek' hcc
          exact h3 id' t' ek' hcc
      | false =>
        rw [toggle_youtube_false w v t hc hpl]
        refine ⟨?_, ?_, ?_⟩
        · intro src hp
          rcases playing_ytPlay hp with h | h
          · subst h
            exact ⟨t, hc⟩
          · exact backs_congr rfl (h1 src h)
        · intro hcc
          rw [show ({ s with playing := true } : Coord).current = s.current from rfl, hc] at hcc
          cases hcc
        · intro id' t' ek' hcc
          exact h3 id' t' ek' hcc

lemma inv_stop {s : Coord} {w : World} (hI : Inv s w) :
    Inv (stopOp s w).1 (stopOp s w).2 := by
  have hP := inv_pauseAll hI
  obtain ⟨h1, h2, h3⟩ := hP
  refine ⟨?_, ?_, ?_⟩
  · intro src hp
    exact backs_congr rfl (h1 src hp)
  · intro hc
    rfl
  · intro id' t' ek' hcc
    exact h3 id' t' ek' hcc

lemma inv_seekBy (d : ℚ) {s : Coord} {w : World} (hI : Inv s w) :
    Inv (seekByOp d s w).1 (seekByOp d s w).2 := by
  obtain ⟨h1, h2, h3⟩ := hI
  cases hc : s.current with
  | none =>
    rw [seekBy_of_none w d hc]
    exact ⟨h1, h2, h3⟩
  | some it =>
    cases it with
    | audio id t ek =>
      obtain ⟨k, hek, har⟩ := h3 id t ek hc
      subst hek
      rw [seekBy_audio_spec w d id t (some k) k hc har]
      refine ⟨?_, ?_, ?_⟩
      · intro src hp
        rw [playingSrc_audioSetTime] at hp
        exact backs_congr rfl (h1 src hp)
      · intro hcc
        rw [show (({ s with position := rMax 0 (rMin (w.audios k).duration ((w.audios k).currentTime + d)) }) : Coord).current = s.current from rfl, hc] at hcc
        cases hcc
      · intro id' t' ek' hcc
        exact h3 id' t' ek' hcc
    | youtube v t =>
      rw [seekBy_youtube_spec w d v t hc]
      refine ⟨?_, ?_, ?_⟩
      · intro src hp
        rw [playingSrc_ytSeekTo] at hp
        exact backs_congr rfl (h1 src hp)
      · intro hcc
        rw [show (({ s with position := rMax 0 (rMin (ytGetTimes v w).2 ((ytGetTimes v w).1 + d)) }) : Coord).current = s.current from rfl, hc] at hcc
        cases hcc
      · intro id' t' ek' hcc
        exact h3 id' t' ek' hcc

lemma inv_seekTo (x : ℚ) {s : Coord} {w : World} (hI : Inv s w) :
    Inv (seekToOp x s w).1 (seekToOp x s w).2 := by
  obtain ⟨h1, h2, h3⟩ := hI
  cases hc : s.current with
  | none =>
    rw [seekTo_of_none w x hc]
    exact ⟨h1, h2, h3⟩
  | some it =>
    cases it with
    | audio id t ek =>
      obtain ⟨k, hek, har⟩ := h3 id t ek hc
      subst hek
      rw [seekTo_audio_spec w x id t (some k) k hc har]
      refine ⟨?_, ?_, ?_⟩
      · intro src hp
        rw [playingSrc_audioSetTime] at hp
        exact backs_congr rfl (h1 src hp)
      · intro hcc
        rw [show (({ s with position := x }) : Coord).current = s.current from rfl, hc] at hcc
        cases hcc
      · intro id' t' ek' hcc
        exact h3 id' t' ek' hcc
    | youtube v t =>
      rw [seekTo_youtube_spec w x v t hc]
      refine ⟨?_, ?_, ?_⟩
      · intro src hp
        rw [playingSrc_ytSeekTo] at hp
        exact backs_congr rfl (h1 src hp)
      · intro hcc
        rw [show (({ s with position := x }) : Coord).current = s.current from rfl, hc] at hcc
        cases hcc
      · intro id' t' ek' hcc
        exact h3 id' t' ek' hcc

lemma inv_navTo (ni : Int) (a : Bool) {s : Coord} {w : World} (hI : Inv s w) :
    Inv (navTo ni a s w).1 (navTo ni a s w).2 := by
  cases hlook : (if 0 ≤ ni then s.queue.get? ni.toNat else none) with
  | none =>
    rw [navTo_miss ni a w hlook]
    exact hI
  | some it =>
    cases it with
    | audio id t ek =>
      cases ek with
      | none =>
        rw [navTo_audio_noel ni a w id t hlook]
        obtain ⟨h1, h2, h3⟩ := hI
        refine ⟨?_, ?_, ?_⟩
        · intro src hp
          exact backs_congr rfl (h1 src hp)
        · intro hcc
          exact h2 hcc
        · intro id' t' ek' hcc
          exact h3 id' t' ek' hcc
      | some k =>
        rw [navTo_audio_eq_rp ni a w id t k hlook]
        exact inv_requestPlayAudio k id t hI
    | youtube v t =>
      rw [navTo_yt_spec ni a w v t hlook]
      by_cases hb : (a || ((pauseAllOp s w).2.players v).isSome) = true
      · rw [if_pos hb]
        exact inv_rpYTCont v t none (pauseAll_quiet hI.1)
      · rw [if_neg hb]
        have hP := inv_pauseAll hI
        obtain ⟨h1, h2, h3⟩ := hP
        refine ⟨?_, ?_, ?_⟩
        · intro src hp
          exact backs_congr rfl (h1 src hp)
        · intro hcc
          have := h2 hcc
          exact this
        · intro id' t' ek' hcc
          exact h3 id' t' ek' hcc

lemma inv_next (a : Bool) {s : Coord} {w : World} (hI : Inv s w) :
    Inv (nextOp a s w).1 (nextOp a s w).2 := by
  by_cases h : s.queue.length ≤ 1
  · rw [nextOp_short w a h]
    exact hI
  · rw [nextOp_long w a h]
    exact inv_navTo _ a hI

lemma inv_prev (a : Bool) {s : Coord} {w : World} (hI : Inv s w) :
    Inv (prevOp a s w).1 (prevOp a s w).2 := by
  by_cases h : s.queue.length ≤ 1
  · rw [prevOp_short w a h]
    exact hI
  · rw [prevOp_long w a h]
    exact inv_navTo _ a hI

/-- The invariant is preserved by every public operation. -/
lemma inv_step (op : Op) {sw : Coord × World} (hI : Inv sw.1 sw.2) :
    Inv (stepOp op sw).1 (stepOp op sw).2 := by
  cases op with
  | playAudio k id t => exact inv_requestPlayAudio k id t hI
  | playYouTube v t st a => exact inv_requestPlayYouTube v t st a hI
  | doToggle => exact inv_toggle hI
  | doPauseAll => exact inv_pauseAll hI
  | doStop => exact inv_stop hI
  | doSeekBy d => exact inv_seekBy d hI
  | doSeekTo x => exact inv_seekTo x hI
  | doNext a => exact inv_next a hI
  | doPrev a => exact inv_prev a hI

lemma inv_runAux (ops : List Op) {sw : Coord × World} (hI : Inv sw.1 sw.2) :
    Inv (runOps ops sw).1 (runOps ops sw).2 := by
  induction ops generalizing sw with
  | nil => exact hI
  | cons op ops ih =>
    rw [runOps, List.foldl_cons]
    exact ih (inv_step op hI)

/-- The invariant holds after any sequence of operations from the initial
state in a world with nothing playing. -/
lemma inv_run (w0 : World) (hq : ∀ src, playingSrc w0 src = false) (ops : List Op) :
    Inv (runOps ops (initState, w0)).1 (runOps ops (initState, w0)).2 := by
  refine inv_runAux ops ⟨?_, ?_, ?_⟩
  · intro src hp
    rw [hq src] at hp
    cases hp
  · intro _
    rfl
  · intro id t ek hc
    exact Option.noConfusion hc

/-! Support lemmas for the individual claims. -/

lemma backs_unique {c : Coord} {s1 s2 : Src}
    (h1 : backsCurrent c s1) (h2 : backsCurrent c s2) : s1 = s2 := by
  cases s1 with
  | audioEl k1 =>
    rcases h1 with ⟨id1, t1, hc1⟩
    cases s2 with
    | audioEl k2 =>
      rcases h2 with ⟨id2, t2, hc2⟩
      rw [hc1] at hc2
      cases Option.some.inj hc2
      rfl
    | ytPl v2 =>
      rcases h2 with ⟨t2, hc2⟩
      rw [hc1] at hc2
      cases Option.some.inj hc2
  | ytPl v1 =>
    rcases h1 with ⟨t1, hc1⟩
    cases s2 with
    | audioEl k2 =>
      rcases h2 with ⟨id2, t2, hc2⟩
      rw [hc1] at hc2
      cases Option.some.inj hc2
    | ytPl v2 =>
      rcases h2 with ⟨t2, hc2⟩
      rw [hc1] at hc2
      cases Option.some.inj hc2
      rfl

lemma currentTime_setAudio {k : String} {f : AudioElt → AudioElt} (w : World) (k' : String)
    (hf : ∀ a, (f a).currentTime = a.currentTime) :
    ((setAudio k f w).audios k').currentTime = (w.audios k').currentTime := by
  simp only [setAudio]
  by_cases hk : k' = k
  · rw [if_pos hk, hf]
  · rw [if_neg hk]

lemma currentTime_audioPause (k : String) (w : World) (k' : String) :
    ((audioPause k w).audios k').currentTime = ((w.audios k').currentTime) :=
  currentTime_setAudio w k' (fun _ => rfl)

lemma pauseAll_currentTime (s : Coord) (w : World) (k : String) :
    (((pauseAllOp s w).2).audios k).currentTime = ((w.audios k).currentTime) := by
  obtain ⟨cur, pl, q, i, ar, pos, dur⟩ := s
  cases cur with
  | none => rfl
  | some it =>
    cases it with
    | audio id t ek =>
      cases ek with
      | none => rfl
      | some k0 => exact currentTime_audioPause k0 w k
    | youtube v t =>
      show (((ytPause v w).audios k).currentTime) = _
      rw [audios_ytPause]

lemma pauseAll_players_current (s : Coord) (w : World) (v : String) :
    ((pauseAllOp s w).2.players v).map YTPlayer.current
      = ((w.players v).map YTPlayer.current) := by
  obtain ⟨cur, pl, q, i, ar, pos, dur⟩ := s
  cases cur with
  | none => rfl
  | some it =>
    cases it with
    | audio id t ek =>
      cases ek with
      | none => rfl
      | some k0 => rfl
    | youtube v0 t =>
      show ((ytPause v0 w).players v).map YTPlayer.current = _
      unfold ytPause
      cases hp : w.players v0 with
      | none => rfl
      | some p =>
        simp only [setPlayer]
        by_cases hv : v = v0
        · rw [if_pos hv, hv, hp]
          rfl
        · rw [if_neg hv]

lemma stop_eq_pauseAll {s : Coord} (w : World) (h : s.current = none → s.playing = false) :
    stopOp s w = pauseAllOp s w := by
  obtain ⟨cur, pl, q, i, ar, pos, dur⟩ := s
  cases cur with
  | none =>
    have hpl : pl = false := h rfl
    subst hpl
    rfl
  | some it => cases it <;> rfl

lemma pauseAll_playing_flat {s : Coord} (w : World) (h : s.current = none → s.playing = false) :
    (pauseAllOp s w).1.playing = false := by
  cases hc : s.current with
  | none =>
    rw [pauseAll_of_none w hc]
    exact h hc
  | some it => exact pauseAll_playing_of_some w hc

lemma requestPlayYouTube_true_red (v : String) (t : Option String) (st : Option ℚ)
    (s : Coord) (w : World) :
    requestPlayYouTubeOp v t st true s w
      = rpYTCont v t st (pauseAllOp s w).1 (pauseAllOp s w).2 := by
  have hred : requestPlayYouTubeOp v t st true s w =
      (if true || ((pauseAllOp s w).2.players v).isSome
       then rpYTCont v t st (pauseAllOp s w).1 (pauseAllOp s w).2
       else pauseAllOp s w) := rfl
  rw [hred, if_pos]
  rw [Bool.true_or]

lemma requestPlayYouTube_failed (v : String) (t : Option String) (st : Option ℚ)
    {s : Coord} {w : World} (hp : w.players v = none) :
    requestPlayYouTubeOp v t st false s w = pauseAllOp s w := by
  have hred : requestPlayYouTubeOp v t st false s w =
      (if false || ((pauseAllOp s w).2.players v).isSome
       then rpYTCont v t st (pauseAllOp s w).1 (pauseAllOp s w).2
       else pauseAllOp s w) := rfl
  have hcond : (false || ((pauseAllOp s w).2.players v).isSome) = false := by
    rw [Bool.false_or, pauseAll_players_isSome, hp]
    rfl
  rw [hred, hcond]
  simp

lemma requestPlayAudio_fields (k id : String) (t : Option String) (s : Coord) (w : World) :
    (requestPlayAudioOp k id t s w).1.current = some (Item.audio id t (some k))
    ∧ (requestPlayAudioOp k id t s w).1.queue = [Item.audio id t (some k)]
    ∧ (requestPlayAudioOp k id t s w).1.index = 0
    ∧ (requestPlayAudioOp k id t s w).1.audioRef = some k
    ∧ (requestPlayAudioOp k id t s w).1.playing = !((w.audios k).playFails) := by
  refine ⟨rfl, rfl, rfl, rfl, ?_⟩
  show (!((audioLoad k (pauseAllOp s w).2).audios k).playFails) = _
  rw [playFails_audioLoad, pauseAll_playFails]

lemma rpYTCont_fields (v : String) (t : Option String) (st : Option ℚ)
    (s : Coord) (w : World) :
    (rpYTCont v t st s w).1.current = some (Item.youtube v t)
    ∧ (rpYTCont v t st s w).1.queue = [Item.youtube v t]
    ∧ (rpYTCont v t st s w).1.index = 0
    ∧ (rpYTCont v t st s w).1.playing = true :=
  ⟨rfl, rfl, rfl, rfl⟩

lemma rMax_zero_nonneg (b : ℚ) : 0 ≤ rMax 0 b := by
  unfold rMax
  by_cases h : (0 : ℚ) ≤ b
  · rw [if_pos h]
    exact h
  · rw [if_neg h]

lemma rMax_le_of {a b c : ℚ} (ha : a ≤ c) (hb : b ≤ c) : rMax a b ≤ c := by
  unfold rMax
  by_cases h : a ≤ b
  · rw [if_pos h]
    exact hb
  · rw [if_neg h]
    exact ha

lemma rMin_le_left (a b : ℚ) : rMin a b ≤ a := by
  unfold rMin
  by_cases h : a ≤ b
  · rw [if_pos h]
  · rw [if_neg h]
    exact le_of_not_le h

/-! The claims. -/

/-- C1: for any sequence of settled coordinator operations (in particular any
sequence of requestPlayAudio / requestPlayYouTube calls) started from the
initial state in a world where nothing is playing, after each call settles at
most one backing source is natively playing, and any source still playing
backs the currently active item — the previously active item's backing
resource was paused before the new one started, even when the new activation
failed. -/
theorem c1_at_most_one_playing (w0 : World) (hq : ∀ src, playingSrc w0 src = false)
    (ops : List Op) :
    ∀ s1 s2 : Src,
      playingSrc (runOps ops (initState, w0)).2 s1 = true →
      playingSrc (runOps ops (initState, w0)).2 s2 = true →
      s1 = s2 ∧ backsCurrent (runOps ops (initState, w0)).1 s1 := by
  intro s1 s2 h1 h2
  have hI := inv_run w0 hq ops
  exact ⟨backs_unique (hI.1 s1 h1) (hI.1 s2 h2), hI.1 s1 h1⟩

/-- Witness for C1 at a concrete input: one play request from the quiet
initial world. -/
theorem c1_at_most_one_playing_witness :
    (∀ src, playingSrc quietWorld src = false)
    ∧ (∀ s1 s2 : Src,
        playingSrc (runOps [Op.playYouTube "A" none none true] (initState, quietWorld)).2 s1 = true →
        playingSrc (runOps [Op.playYouTube "A" none none true] (initState, quietWorld)).2 s2 = true →
        s1 = s2 ∧ backsCurrent (runOps [Op.playYouTube "A" none none true] (initState, quietWorld)).1 s1) := by
  constructor
  · intro src
    cases src <;> rfl
  · exact c1_at_most_one_playing quietWorld (fun src => by cases src <;> rfl)
      [Op.playYouTube "A" none none true]

/-- C2 counterexample: a requestPlayYouTube whose activation never completes
(no cached player, the script never becomes ready) leaves `current` at its
previous value — null here — and never records the requested item, refuting
the claim that every activation failure ends with `current` set to the
requested item and `playing` forced to false. -/
theorem c2_youtube_failure_not_absorbed :
    (requestPlayYouTubeOp "abc" none none false initState quietWorld).1.current = none
    ∧ ¬ (requestPlayYouTubeOp "abc" none none false initState quietWorld).1.current
        = some (Item.youtube "abc" none) := by
  exact ⟨by decide, by decide⟩

/-- C2 amended: requestPlayAudio absorbs an activation failure, recording the
requested item as current with playing = false; requestPlayYouTube has no
failure handling — when no player is cached and the activation never
completes, the call's only effect is its synchronous pauseAll prefix, so the
previous current is kept and playing is not re-derived from the request. -/
theorem c2_failure_policy :
    (∀ (k id : String) (t : Option String) (s : Coord) (w : World),
       (requestPlayAudioOp k id t s w).1.current = some (Item.audio id t (some k))
       ∧ ((w.audios k).playFails = true → (requestPlayAudioOp k id t s w).1.playing = false))
    ∧ (∀ (v : String) (t : Option String) (st : Option ℚ) (s : Coord) (w : World),
       w.players v = none →
       requestPlayYouTubeOp v t st false s w = pauseAllOp s w) := by
  constructor
  · intro k id t s w
    obtain ⟨hcur, -, -, -, hpl⟩ := requestPlayAudio_fields k id t s w
    refine ⟨hcur, fun hf => ?_⟩
    rw [hpl, hf]
    rfl
  · intro v t st s w hp
    exact requestPlayYouTube_failed v t st hp

/-- Witness for C2's amended statement at concrete inputs. -/
theorem c2_failure_policy_witness :
    ((failWorld.audios "ka").playFails = true)
    ∧ (requestPlayAudioOp "ka" "a" none initState failWorld).1.playing = false
    ∧ (quietWorld.players "abc" = none)
    ∧ requestPlayYouTubeOp "abc" none none false initState quietWorld
        = pauseAllOp initState quietWorld :=
  ⟨rfl, (c2_failure_policy.1 "ka" "a" none initState failWorld).2 rfl, rfl,
   c2_failure_policy.2 "abc" none none initState quietWorld rfl⟩

/-- C3: evaluating the unguarded generation race — requestPlayYouTube "A"
then requestPlayYouTube "B", with A's activation resolving after B's — shows
the stale activation of A overwriting the state: the final current is A, not
B, and both underlying players end up playing, so A's source is re-activated
rather than left deactivated. -/
theorem c3_stale_activation_wins :
    raceRun.1.current = some (Item.youtube "A" none)
    ∧ playingSrc raceRun.2 (Src.ytPl "A") = true
    ∧ playingSrc raceRun.2 (Src.ytPl "B") = true := by
  exact ⟨by decide, by decide, by decide⟩

/-- C4 counterexample: the requested item A is already a member of queue
[A, B], yet a successful requestPlay replaces the queue (with the singleton
[A]) instead of leaving it unchanged. -/
theorem c4_queue_membership_cex :
    itemA ∈ c4State.queue
    ∧ (requestPlayAudioOp "ka" "a" none c4State quietWorld).1.playing = true
    ∧ (requestPlayAudioOp "ka" "a" none c4State quietWorld).1.queue ≠ c4State.queue := by
  exact ⟨by decide, by decide, by decide⟩

/-- C4 amended: a successful requestPlay sets current = item and
playing = true, and always replaces queue with the singleton [item] and
index = 0, regardless of whether the item was already a queue member. -/
theorem c4_success_replaces_queue :
    (∀ (k id : String) (t : Option String) (s : Coord) (w : World),
       (w.audios k).playFails = false →
       (requestPlayAudioOp k id t s w).1.current = some (Item.audio id t (some k))
       ∧ (requestPlayAudioOp k id t s w).1.playing = true
       ∧ (requestPlayAudioOp k id t s w).1.queue = [Item.audio id t (some k)]
       ∧ (requestPlayAudioOp k id t s w).1.index = 0)
    ∧ (∀ (v : String) (t : Option String) (st : Option ℚ) (s : Coord) (w : World),
       (requestPlayYouTubeOp v t st true s w).1.current = some (Item.youtube v t)
       ∧ (requestPlayYouTubeOp v t st true s w).1.playing = true
       ∧ (requestPlayYouTubeOp v t st true s w).1.queue = [Item.youtube v t]
       ∧ (requestPlayYouTubeOp v t st true s w).1.index = 0) := by
  constructor
  · intro k id t s w hok
    obtain ⟨hcur, hq, hi, -, hpl⟩ := requestPlayAudio_fields k id t s w
    refine ⟨hcur, ?_, hq, hi⟩
    rw [hpl, hok]
    rfl
  · intro v t st s w
    rw [requestPlayYouTube_true_red]
    obtain ⟨hcur, hq, hi, hpl⟩ := rpYTCont_fields v t st (pauseAllOp s w).1 (pauseAllOp s w).2
    exact ⟨hcur, hpl, hq, hi⟩

/-- Witness for C4's amended statement at a concrete input where the item is
already in the queue. -/
theorem c4_success_replaces_queue_witness :
    ((quietWorld.audios "ka").playFails = false)
    ∧ (requestPlayAudioOp "ka" "a" none c4State quietWorld).1.queue = [itemA] :=
  ⟨rfl, (c4_success_replaces_queue.1 "ka" "a" none c4State quietWorld rfl).2.2.1⟩

/-- C5 counterexample: at the upper boundary (index = queue.length - 1 on a
two-item queue) next() is not a no-op: it re-requests the item at the
unchanged index, which replaces the queue. -/
theorem c5_boundary_not_noop_cex :
    c5State.index = (c5State.queue.length : Int) - 1
    ∧ (nextOp true c5State quietWorld).1.queue ≠ c5State.queue := by
  exact ⟨by decide, by decide⟩

/-- C5 amended: next() and prev() are no-ops on an empty or singleton queue;
on a longer queue, next() at the last index and prev() at index 0 do not move
the index but re-request playback of the item at that (clamped, unchanged)
index, which replaces the queue with that singleton item at index 0. -/
theorem c5_nav_guards :
    (∀ (s : Coord) (w : World) (a : Bool), s.queue.length ≤ 1 →
       nextOp a s w = (s, w) ∧ prevOp a s w = (s, w))
    ∧ (∀ (s : Coord) (w : World) (v : String) (t : Option String),
       2 ≤ s.queue.length →
       s.index = (s.queue.length : Int) - 1 →
       s.queue.get? (s.queue.length - 1) = some (Item.youtube v t) →
       (nextOp true s w).1.current = some (Item.youtube v t)
       ∧ (nextOp true s w).1.queue = [Item.youtube v t]
       ∧ (nextOp true s w).1.index = 0)
    ∧ (∀ (s : Coord) (w : World) (v : String) (t : Option String),
       2 ≤ s.queue.length →
       s.index = 0 →
       s.queue.get? 0 = some (Item.youtube v t) →
       (prevOp true s w).1.current = some (Item.youtube v t)
       ∧ (prevOp true s w).1.queue = [Item.youtube v t]
       ∧ (prevOp true s w).1.index = 0) := by
  refine ⟨?_, ?_, ?_⟩
  · intro s w a h
    exact ⟨nextOp_short w a h, prevOp_short w a h⟩
  · intro s w v t hlen hidx hget
    have h2 : ¬ s.queue.length ≤ 1 := by omega
    rw [nextOp_long w true h2]
    have hni : min ((s.queue.length : Int) - 1) (s.index + 1)
        = (s.queue.length : Int) - 1 := by
      rw [hidx]
      omega
    rw [hni]
    have htn : ((s.queue.length : Int) - 1).toNat = s.queue.length - 1 := by omega
    have hlook : (if 0 ≤ (s.queue.length : Int) - 1
        then s.queue.get? ((s.queue.length : Int) - 1).toNat else none)
        = some (Item.youtube v t) := by
      rw [if_pos (by omega), htn, hget]
    rw [navTo_yt_spec _ true w v t hlook, if_pos]
    · exact ⟨rfl, rfl, rfl⟩
    · rw [Bool.true_or]
  · intro s w v t hlen hidx hget
    have h2 : ¬ s.queue.length ≤ 1 := by omega
    rw [prevOp_long w true h2]
    have hni : max 0 (s.index - 1) = (0 : Int) := by
      rw [hidx]
      exact max_eq_left (by omega)
    have hlook : (if 0 ≤ max 0 (s.index - 1)
        then s.queue.get? (max 0 (s.index - 1)).toNat else none)
        = some (Item.youtube v t) := by
      rw [hni]
      rw [if_pos le_rfl]
      exact hget
    rw [navTo_yt_spec _ true w v t hlook, if_pos]
    · exact ⟨rfl, rfl, rfl⟩
    · rw [Bool.true_or]

/-- Witness for C5's amended statement: the singleton guard at the initial
state and the boundary re-request on the two-item queue. -/
theorem c5_nav_guards_witness :
    (initState.queue.length ≤ 1 ∧ nextOp true initState quietWorld = (initState, quietWorld))
    ∧ (2 ≤ c5State.queue.length
       ∧ c5State.index = (c5State.queue.length : Int) - 1
       ∧ c5State.queue.get? (c5State.queue.length - 1) = some ytY
       ∧ (nextOp true c5State quietWorld).1.queue = [ytY]) := by
  refine ⟨⟨by decide, (c5_nav_guards.1 initState quietWorld true (by decide)).1⟩,
          by decide, by decide, by decide,
          (c5_nav_guards.2.1 c5State quietWorld "Y" none (by decide) (by decide) (by decide)).2.1⟩

/-- C6 counterexample: from queue [X, Y, Z] at index 1, a settled next() does
advance to Z and play it, but replaces the queue with the singleton [Z] at
index 0; the claimed final index 2 with the three-item queue retained is
false. -/
theorem c6_scenario_cex :
    ¬ ((nextOp true c6State quietWorld).1.index = 2
       ∧ (nextOp true c6State quietWorld).1.queue = c6State.queue) := by
  decide

/-- C6 amended: from queue [X, Y, Z] at index 1 (current Y, playing), a
settled next() yields current = Z and playing = true, but with the queue
replaced by the singleton [Z] and index = 0; a further next() is then a
no-op (by the singleton guard), leaving state and world unchanged. -/
theorem c6_scenario_amended :
    (nextOp true c6State quietWorld).1 =
      { current := some ytZ, playing := true, queue := [ytZ], index := 0,
        audioRef := none, position := 0, duration := 0 }
    ∧ nextOp true (nextOp true c6State quietWorld).1 (nextOp true c6State quietWorld).2
        = ((nextOp true c6State quietWorld).1, (nextOp true c6State quietWorld).2) := by
  have h1 : (nextOp true c6State quietWorld).1 =
      { current := some ytZ, playing := true, queue := [ytZ], index := 0,
        audioRef := none, position := 0, duration := 0 } := by decide
  refine ⟨h1, ?_⟩
  apply nextOp_short
  rw [h1]
  decide

/-- C7 counterexample: seekTo (the coordinator's absolute seek) applies the
raw target with no clamping: on an active direct-audio source with duration
120, seekTo (-5) records position -5 and seekTo 500 records position 500,
not the claimed 0 and 120. -/
theorem c7_seekTo_unclamped_cex :
    (c7World.audios "ka").duration = 120
    ∧ (seekToOp (-5) c7State c7World).1.position = -5
    ∧ (seekToOp 500 c7State c7World).1.position = 500 :=
  ⟨rfl, rfl, rfl⟩

/-- C7 amended: relative seeking (seekBy) clamps the resulting position to
[0, duration] for both source kinds; absolute seeking (seekTo) performs no
clamping and records the raw target as the position. -/
theorem c7_seek_clamping :
    (∀ (d : ℚ) (s : Coord) (w : World) (id : String) (t : Option String)
       (ek : Option String) (k : String),
       s.current = some (.audio id t ek) → s.audioRef = some k →
       0 ≤ (w.audios k).duration →
       0 ≤ (seekByOp d s w).1.position
       ∧ (seekByOp d s w).1.position ≤ (w.audios k).duration)
    ∧ (∀ (d : ℚ) (s : Coord) (w : World) (v : String) (t : Option String),
       s.current = some (.youtube v t) →
       0 ≤ (ytGetTimes v w).2 →
       0 ≤ (seekByOp d s w).1.position
       ∧ (seekByOp d s w).1.position ≤ (ytGetTimes v w).2)
    ∧ (∀ (x : ℚ) (s : Coord) (w : World) (id : String) (t : Option String)
       (ek : Option String) (k : String),
       s.current = some (.audio id t ek) → s.audioRef = some k →
       (seekToOp x s w).1.position = x)
    ∧ (∀ (x : ℚ) (s : Coord) (w : World) (v : String) (t : Option String),
       s.current = some (.youtube v t) →
       (seekToOp x s w).1.position = x) := by
  refine ⟨?_, ?_, ?_, ?_⟩
  · intro d s w id t ek k hc har hdur
    rw [seekBy_audio_spec w d id t ek k hc har]
    exact ⟨rMax_zero_nonneg _, rMax_le_of hdur (rMin_le_left _ _)⟩
  · intro d s w v t hc hdur
    rw [seekBy_youtube_spec w d v t hc]
    exact ⟨rMax_zero_nonneg _, rMax_le_of hdur (rMin_le_left _ _)⟩
  · intro x s w id t ek k hc har
    rw [seekTo_audio_spec w x id t ek k hc har]
  · intro x s w v t hc
    rw [seekTo_youtube_spec w x v t hc]

/-- Witness for C7's amended statement on the duration-120 source. -/
theorem c7_seek_clamping_witness :
    (c7State.current = some (Item.audio "a" none (some "ka")))
    ∧ (c7State.audioRef = some "ka")
    ∧ (0 ≤ (c7World.audios "ka").duration)
    ∧ (0 ≤ (seekByOp (-50) c7State c7World).1.position
       ∧ (seekByOp (-50) c7State c7World).1.position ≤ (c7World.audios "ka").duration)
    ∧ (seekToOp (-5) c7State c7World).1.position = -5 := by
  refine ⟨rfl, rfl, by norm_num [c7World], ?_, ?_⟩
  · exact c7_seek_clamping.1 (-50) c7State c7World "a" none (some "ka") "ka" rfl rfl
      (by norm_num [c7World])
  · exact c7_seek_clamping.2.2.1 (-5) c7State c7World "a" none (some "ka") "ka" rfl rfl

/-- C8 counterexample: two ensureYouTubePlayer calls for the same identifier
that both run their cache check before the API promise resolves construct two
player instances (the claim says exactly one) and await two distinct
readiness promises (the claim says the same one). -/
theorem c8_concurrent_double_construct_cex :
    (raceFinal "beats").playerCount = 2 ∧ raceProm1 "beats" ≠ raceProm2 "beats" := by
  exact ⟨by decide, by decide⟩

/-- C8 amended: ensureYouTubePlayer is idempotent only sequentially — a call
finding a cached player returns it without any new construction or script
injection, so a second completed call changes nothing — and the API script
is injected at most once even for the concurrent pair; but two calls racing
past the cache check before either registers its player each construct a
player instance. -/
theorem c8_ensure_idempotent_amended :
    (∀ (vid : String) (i : Nat) (m : Mgr), m.players vid = some i → ensureFull vid m = (i, m))
    ∧ (ensureFull "beats" (ensureFull "beats" mgr0).2).1 = (ensureFull "beats" mgr0).1
    ∧ (ensureFull "beats" (ensureFull "beats" mgr0).2).2.playerCount = 1
    ∧ (ensureFull "beats" (ensureFull "beats" mgr0).2).2.scriptCount = 1
    ∧ (raceFinal "beats").scriptCount = 1 := by
  refine ⟨?_, by decide, by decide, by decide, by decide⟩
  intro vid i m hp
  unfold ensureFull ensureCheck
  rw [hp]

/-- Witness for C8's amended statement: the second sequential call on the
registered player is the identity. -/
theorem c8_ensure_idempotent_amended_witness :
    ((ensureFull "beats" mgr0).2.players "beats" = some 0)
    ∧ ensureFull "beats" (ensureFull "beats" mgr0).2
        = (0, (ensureFull "beats" mgr0).2) := by
  refine ⟨by decide, c8_ensure_idempotent_amended.1 "beats" 0 (ensureFull "beats" mgr0).2 (by decide)⟩

/-- C9 counterexample: from the (unreachable) state with current = null but
playing = true, pauseAll returns without touching the state — playing stays
true — while stop forces playing to false, so over arbitrary states the two
are not equivalent and pauseAll does not always set playing to false. -/
theorem c9_pauseAll_phantom_cex :
    phantomState.current = none
    ∧ phantomState.playing = true
    ∧ (pauseAllOp phantomState quietWorld).1.playing = true
    ∧ (stopOp phantomState quietWorld).1.playing = false :=
  ⟨rfl, rfl, rfl, rfl⟩

/-- C9 amended: on every state satisfying the coordinator's run-time
invariant that a null current implies not playing (which holds in every
reachable state), stop() and pauseAll() are observably identical: equal
result state and world, current / queue / index unchanged, playing false
afterwards, and no playback position (audio currentTime or player current)
is reset. -/
theorem c9_stop_pauseAll_equiv (s : Coord) (w : World)
    (h : s.current = none → s.playing = false) :
    stopOp s w = pauseAllOp s w
    ∧ (pauseAllOp s w).1.current = s.current
    ∧ (pauseAllOp s w).1.queue = s.queue
    ∧ (pauseAllOp s w).1.index = s.index
    ∧ (pauseAllOp s w).1.playing = false
    ∧ (∀ k, ((pauseAllOp s w).2.audios k).currentTime = (w.audios k).currentTime)
    ∧ (∀ v, ((pauseAllOp s w).2.players v).map YTPlayer.current
            = (w.players v).map YTPlayer.current) := by
  obtain ⟨hcur, hq, hi, -⟩ := pauseAll_state s w
  exact ⟨stop_eq_pauseAll w h, hcur, hq, hi, pauseAll_playing_flat w h,
         fun k => pauseAll_currentTime s w k, fun v => pauseAll_players_current s w v⟩

/-- Witness for C9's amended statement at the initial state. -/
theorem c9_stop_pauseAll_equiv_witness :
    (initState.current = none → initState.playing = false)
    ∧ stopOp initState quietWorld = pauseAllOp initState quietWorld :=
  ⟨fun _ => rfl, (c9_stop_pauseAll_equiv initState quietWorld (fun _ => rfl)).1⟩

/-- C10: in every coordinator state reachable from the initial state
(current null, playing false, empty queue, index -1) by any sequence of
public operations starting on the freshly loaded (quiet) page, a null
current implies playing = false; and toggle, seekBy and seekTo are no-ops
on any state with a null current. -/
theorem c10_idle_invariant :
    (∀ (w0 : World), (∀ src, playingSrc w0 src = false) → ∀ (ops : List Op),
       (runOps ops (initState, w0)).1.current = none →
       (runOps ops (initState, w0)).1.playing = false)
    ∧ (∀ (s : Coord) (w : World), s.current = none →
       toggleOp s w = (s, w)
       ∧ (∀ d, seekByOp d s w = (s, w))
       ∧ (∀ x, seekToOp x s w = (s, w))) := by
  constructor
  · intro w0 hq ops hc
    exact (inv_run w0 hq ops).2.1 hc
  · intro s w hc
    exact ⟨toggle_of_none w hc, fun d => seekBy_of_none w d hc,
           fun x => seekTo_of_none w x hc⟩

/-- Witness for C10 at concrete inputs. -/
theorem c10_idle_invariant_witness :
    (∀ src, playingSrc quietWorld src = false)
    ∧ ((runOps [Op.doPauseAll] (initState, quietWorld)).1.current = none →
       (runOps [Op.doPauseAll] (initState, quietWorld)).1.playing = false)
    ∧ toggleOp initState quietWorld = (initState, quietWorld) := by
  refine ⟨fun src => by cases src <;> rfl,
          c10_idle_invariant.1 quietWorld (fun src => by cases src <;> rfl) [Op.doPauseAll],
          (c10_idle_invariant.2 initState quietWorld rfl).1⟩

end VibesFM
